import Mathlib

/-!
Verification of the forastero stream-arbiter testbench
(`src/testbench/testbench.py`): a shallow embedding of the stream
initiator/responder drivers, the stream monitor, the sequences, the
scoreboard channel matcher and the `random` testcase, together with proofs
of the stated properties.
-/

set_option autoImplicit false

/-- `StreamTransaction` from `transaction.py`: a dataclass with a single
integer field `data` defaulting to `0`. -/
structure StreamTransaction where
  data : Nat := 0
  deriving Repr, DecidableEq

/-- `StreamBackpressure` from `transaction.py`: dataclass with `ready`
defaulting to `True` and `cycles` defaulting to `1`. -/
structure StreamBackpressure where
  ready : Bool := true
  cycles : Nat := 1
  deriving Repr, DecidableEq

/-! ## The `random` testcase packet-distribution loop

The loop body (testbench.py, `random` testcase):
```
if (num_b > (num_a + 2)) or ((num_a < (num_b + 2)) and tb.random.choice((True, False))):
    tb.a_init.enqueue(obj); num_a += 1
else:
    tb.b_init.enqueue(obj); num_b += 1
```
One iteration is a function of the counters and of the boolean outcome `c`
of `tb.random.choice((True, False))` (which, by short-circuit, is consulted
only when the forced branch does not fire; modelling the choice as drawn
per iteration is faithful, since an unconsulted outcome does not affect
the branch taken). -/
def distStep (na nb : Nat) (c : Bool) : Nat × Nat :=
  if nb > na + 2 || (decide (na < nb + 2) && c) then (na + 1, nb) else (na, nb + 1)

/-- The packet-distribution loop after `n` iterations, where `f i` is the
outcome of the random choice consulted at iteration `i`, starting from
`num_a = num_b = 0`. -/
def distRun (f : Nat → Bool) : Nat → Nat × Nat
  | 0 => (0, 0)
  | n + 1 =>
    let p := distRun f n
    distStep p.1 p.2 (f n)

/-- C1 failing input: with every random choice returning `False`, after 3
iterations the loop reaches `num_a = 0`, `num_b = 3`: driver B is 3
transactions ahead of driver A, exceeding the drift bound of 2 stated by
the claim and by the code's own comment ("A & B aren't allowed to drift
more than 2 transactions out of sync"). -/
theorem c1_drift_bound_violated :
    distRun (fun _ => false) 3 = (0, 3) ∧
      (distRun (fun _ => false) 3).2 > (distRun (fun _ => false) 3).1 + 2 := by
  constructor <;> decide

/-- C10: every iteration of the packet loop enqueues on exactly one of the
two drivers — `distStep` increments exactly one of the two counters — and
consequently `num_a + num_b = packets` after the loop, for every outcome
sequence of the random choices. -/
theorem c10_exactly_one_driver (f : Nat → Bool) (n na nb : Nat) (c : Bool) :
    (distStep na nb c = (na + 1, nb) ∨ distStep na nb c = (na, nb + 1)) ∧
      (distRun f n).1 + (distRun f n).2 = n := by
  constructor
  · unfold distStep
    split
    · exact Or.inl rfl
    · exact Or.inr rfl
  · induction n with
    | zero => rfl
    | succ m ih =>
      show (distStep (distRun f m).1 (distRun f m).2 (f m)).1 +
          (distStep (distRun f m).1 (distRun f m).2 (f m)).2 = m + 1
      unfold distStep
      split <;> simp <;> omega

/-! ## StreamMonitor

`StreamMonitor.monitor` (testbench.py lines 52-59):
```
while True:
    await RisingEdge(self.clk)
    if self.rst.value == self.tb.rst_active_value:
        continue
    if self.io.get("valid", 1) and self.io.get("ready", 1):
        capture(StreamTransaction(data=self.io.get("data", 0)))
```
A run is embedded as the finite list of rising clock edges observed, each
edge carrying the values of the reset, `valid`, `ready` and `data` signals
visible at that edge; `monitorRun` returns the list of transactions passed
to `capture`, in order. -/
structure Edge where
  rst : Nat
  valid : Bool
  ready : Bool
  data : Nat
  deriving Repr, DecidableEq

/-- What `StreamMonitor.monitor` captures at one rising edge. -/
def monitorStep (rstActive : Nat) (e : Edge) : List StreamTransaction :=
  if e.rst = rstActive then []
  else if e.valid && e.ready then [{ data := e.data }] else []

/-- All transactions captured by `StreamMonitor.monitor` over a run. -/
def monitorRun (rstActive : Nat) : List Edge → List StreamTransaction
  | [] => []
  | e :: rest => monitorStep rstActive e ++ monitorRun rstActive rest

/-- C2: over every run of `StreamMonitor.monitor`, the captured
transactions are exactly one per edge at which reset is inactive and
`valid` and `ready` both read true, in edge order, each carrying the
`data` value visible at its own edge; reset-active edges and edges without
the full handshake capture nothing. -/
theorem c2_monitor_exactly_once (rstActive : Nat) (edges : List Edge) :
    monitorRun rstActive edges =
      (edges.filter
        (fun e => decide (e.rst ≠ rstActive) && e.valid && e.ready)).map
        (fun e => { data := e.data }) := by
  induction edges with
  | nil => rfl
  | cons e rest ih =>
    simp only [monitorRun, monitorStep, List.filter]
    by_cases hrst : e.rst = rstActive
    · simp [hrst, ih]
    · by_cases hv : e.valid
      · by_cases hr : e.ready
        · simp [hrst, hv, hr, ih]
        · simp [hrst, hv, hr, ih]
      · simp [hrst, hv, ih]

/-! ## Driver actions

Drivers interact with the simulator through `io.set`, signal reads, edge
waits and cycle waits; a `drive` call is embedded as the list of such
actions it performs, in order. -/
inductive Act where
  | setData (v : Nat)
  | setValid (v : Nat)
  | setReady (v : Nat)
  | getReady
  | awaitEdge
  | waitCycles (n : Nat)
  deriving Repr, DecidableEq

/-- The `while True` loop of `StreamInitiator.drive` (testbench.py lines
12-15): each iteration awaits a rising edge, then reads `ready` and breaks
when it is true.  `readys` is the value of `ready` visible at each
successive rising edge; `none` means no edge of the run shows `ready`
true, so the loop never exits within the run. -/
def initiatorLoop : List Bool → Option (List Act)
  | [] => none
  | r :: rest =>
    if r then some [Act.awaitEdge, Act.getReady]
    else (initiatorLoop rest).map (fun t => Act.awaitEdge :: Act.getReady :: t)

namespace StreamInitiator

/-- `StreamInitiator.drive` (testbench.py lines 9-16): set `data` and
`valid`, run the await-ready loop, then deassert `valid`. -/
def drive (obj : StreamTransaction) (readys : List Bool) : Option (List Act) :=
  (initiatorLoop readys).map (fun loopActs =>
    Act.setData obj.data :: Act.setValid 1 :: (loopActs ++ [Act.setValid 0]))

end StreamInitiator

/-- Index of the first rising edge at which `ready` reads true. -/
def firstTrueIdx : List Bool → Option Nat
  | [] => none
  | r :: rest => if r then some 0 else (firstTrueIdx rest).map (· + 1)

/-- The action trace of `n` completed iterations of the initiator's
await-and-check loop: each iteration awaits one rising edge and then reads
`ready` once. -/
def pollActs : Nat → List Act
  | 0 => []
  | n + 1 => Act.awaitEdge :: Act.getReady :: pollActs n

theorem initiatorLoop_eq_pollActs (readys : List Bool) (i : Nat)
    (h : firstTrueIdx readys = some i) :
    initiatorLoop readys = some (pollActs (i + 1)) := by
  induction readys generalizing i with
  | nil => simp [firstTrueIdx] at h
  | cons r rest ih =>
    by_cases hr : r
    · simp [firstTrueIdx, hr] at h
      simp [initiatorLoop, hr, ← h, pollActs]
    · simp only [firstTrueIdx, hr, if_neg, Bool.false_eq_true, not_false_iff,
        if_false, Option.map_eq_some'] at h
      obtain ⟨j, hj, hji⟩ := h
      simp [initiatorLoop, hr, ih j hj, ← hji, pollActs]

/-- C3: whenever the run's `ready` trace first reads true at rising edge
`i`, `StreamInitiator.drive obj` performs exactly: set `data` to
`obj.data`, set `valid` to `1`, await `i + 1` rising edges (checking
`ready` after each, the check succeeding only at edge `i`), and only then
set `valid` to `0` and return — so `data` and `valid` are held untouched
through every edge up to and including the first edge with `ready` true,
and `valid` is never deasserted before such an edge. -/
theorem c3_initiator_drive (obj : StreamTransaction) (readys : List Bool)
    (i : Nat) (h : firstTrueIdx readys = some i) :
    StreamInitiator.drive obj readys =
      some (Act.setData obj.data :: Act.setValid 1 ::
        (pollActs (i + 1) ++ [Act.setValid 0])) := by
  simp [StreamInitiator.drive, initiatorLoop_eq_pollActs readys i h]

/-- Witness for C3 at `readys = [false, true]` (first true ready at edge 1). -/
theorem c3_witness :
    firstTrueIdx [false, true] = some 1 ∧
      StreamInitiator.drive { data := 7 } [false, true] =
        some (Act.setData 7 :: Act.setValid 1 ::
          (pollActs 2 ++ [Act.setValid 0])) :=
  ⟨by decide, c3_initiator_drive { data := 7 } [false, true] 1 (by decide)⟩

theorem initiatorLoop_shape (readys : List Bool) (l : List Act)
    (h : initiatorLoop readys = some l) :
    ∃ t, l = Act.awaitEdge :: Act.getReady :: t := by
  cases readys with
  | nil => simp [initiatorLoop] at h
  | cons r rest =>
    by_cases hr : r
    · simp only [initiatorLoop, hr, if_pos, Option.some_inj] at h
      exact ⟨[], h.symm⟩
    · simp only [initiatorLoop, hr, Bool.false_eq_true, not_false_iff,
        if_neg, if_false, Option.map_eq_some'] at h
      obtain ⟨t', _, hl⟩ := h
      exact ⟨t', hl.symm⟩

/-- C8: whenever `StreamInitiator.drive` returns, its first three actions
are set `data`, set `valid` to 1, await a rising edge — the `ready` check
happens only after awaiting an edge — and its very last action is
deasserting `valid`; hence `valid` stays asserted across at least one
rising clock edge even when `ready` is already true when drive begins. -/
theorem c8_valid_across_edge (obj : StreamTransaction) (readys : List Bool)
    (acts : List Act) (h : StreamInitiator.drive obj readys = some acts) :
    acts.take 3 = [Act.setData obj.data, Act.setValid 1, Act.awaitEdge] ∧
      acts.getLast? = some (Act.setValid 0) := by
  simp only [StreamInitiator.drive, Option.map_eq_some'] at h
  obtain ⟨l, hl, hacts⟩ := h
  obtain ⟨t, rfl⟩ := initiatorLoop_shape readys l hl
  subst hacts
  refine ⟨rfl, ?_⟩
  rw [show Act.setData obj.data :: Act.setValid 1 ::
      ((Act.awaitEdge :: Act.getReady :: t) ++ [Act.setValid 0]) =
      (Act.setData obj.data :: Act.setValid 1 :: Act.awaitEdge ::
        Act.getReady :: t) ++ [Act.setValid 0] by simp]
  exact List.getLast?_concat _

/-- Witness for C8 at `readys = [true]` (ready already true at the first
edge): drive still awaits one edge before deasserting `valid`. -/
theorem c8_witness :
    StreamInitiator.drive { data := 5 } [true] =
        some [Act.setData 5, Act.setValid 1, Act.awaitEdge, Act.getReady,
          Act.setValid 0] ∧
      ([Act.setData 5, Act.setValid 1, Act.awaitEdge, Act.getReady,
          Act.setValid 0].take 3 =
        [Act.setData 5, Act.setValid 1, Act.awaitEdge] ∧
        ([Act.setData 5, Act.setValid 1, Act.awaitEdge, Act.getReady,
          Act.setValid 0] : List Act).getLast? = some (Act.setValid 0)) :=
  ⟨by decide,
    c8_valid_across_edge { data := 5 } [true]
      [Act.setData 5, Act.setValid 1, Act.awaitEdge, Act.getReady,
        Act.setValid 0] (by decide)⟩

/-! ## StreamResponder -/

/-- The visible signal state of the stream interface. -/
structure SigState where
  data : Nat := 0
  valid : Nat := 0
  ready : Nat := 0
  deriving Repr, DecidableEq

/-- Runs a driver's action trace against the signal state: returns the
final signal state together with one snapshot of the visible signal state
per clock edge spent (a rising-edge wait contributes one snapshot,
`ClockCycles n` contributes `n`). -/
def exec (s : SigState) : List Act → SigState × List SigState
  | [] => (s, [])
  | Act.setData v :: rest => exec { s with data := v } rest
  | Act.setValid v :: rest => exec { s with valid := v } rest
  | Act.setReady v :: rest => exec { s with ready := v } rest
  | Act.getReady :: rest => exec s rest
  | Act.awaitEdge :: rest =>
    let p := exec s rest
    (p.1, s :: p.2)
  | Act.waitCycles n :: rest =>
    let p := exec s rest
    (p.1, List.replicate n s ++ p.2)

namespace StreamResponder

/-- `StreamResponder.drive` (testbench.py lines 71-73): set `ready` to
`obj.ready` and wait `obj.cycles` clock cycles. -/
def drive (obj : StreamBackpressure) : List Act :=
  [Act.setReady (if obj.ready then 1 else 0), Act.waitCycles obj.cycles]

end StreamResponder

/-- C5: for every backpressure transaction with `cycles ≥ 1`, the
non-blocking `StreamResponder.drive` sets `ready` to `obj.ready` and then
holds the whole signal state (in particular `ready`) constant at that
value for exactly `obj.cycles` clock cycles before returning, and its
action trace contains no read of any handshake signal and no
edge-triggered handshake wait. -/
theorem c5_responder_hold (obj : StreamBackpressure) (s : SigState)
    (_h : 1 ≤ obj.cycles) :
    (exec s (StreamResponder.drive obj)).2 =
        List.replicate obj.cycles
          { s with ready := if obj.ready then 1 else 0 } ∧
      (exec s (StreamResponder.drive obj)).1 =
        { s with ready := if obj.ready then 1 else 0 } ∧
      Act.getReady ∉ StreamResponder.drive obj ∧
      Act.awaitEdge ∉ StreamResponder.drive obj := by
  refine ⟨?_, ?_, ?_, ?_⟩ <;> simp [StreamResponder.drive, exec]

/-- Witness for C5 at `obj = StreamBackpressure(ready=False, cycles=3)`. -/
theorem c5_witness :
    1 ≤ ({ ready := false, cycles := 3 } : StreamBackpressure).cycles ∧
      ((exec {} (StreamResponder.drive { ready := false, cycles := 3 })).2 =
          List.replicate 3 { ready := 0 } ∧
        (exec {} (StreamResponder.drive { ready := false, cycles := 3 })).1 =
          { ready := 0 } ∧
        Act.getReady ∉ StreamResponder.drive { ready := false, cycles := 3 } ∧
        Act.awaitEdge ∉
          StreamResponder.drive { ready := false, cycles := 3 }) := by
  refine ⟨by decide, ?_⟩
  simpa using c5_responder_hold { ready := false, cycles := 3 } {} (by decide)

/-- C9: the dataclass defaults — `StreamBackpressure()` has `cycles = 1`
and `ready = True`, `StreamTransaction()` has `data = 0` — and
consequently the testcase's initial `StreamBackpressure(ready=True)` makes
`StreamResponder.drive` hold `ready` high for exactly one clock cycle. -/
theorem c9_defaults :
    ({} : StreamBackpressure).cycles = 1 ∧
      ({} : StreamBackpressure).ready = true ∧
      ({} : StreamTransaction).data = 0 ∧
      (exec {} (StreamResponder.drive { ready := true })).2 =
        [{ ready := 1 }] := by
  decide

/-! ## Sequences and the driver lock

A sequence's interaction with its target driver's lock and queue is
embedded as the ordered trace of lock/queue events it performs. -/
inductive SeqEvent where
  | acquire
  | enqueue
  | wait
  | release
  deriving Repr, DecidableEq

/-- `stream_traffic_seq` (testbench.py lines 86-96): for each of `length`
packets, enter `async with ctx.lock(stream)` (acquire), enqueue one
transaction, and leave the `async with` (release). -/
def stream_traffic_seq : Nat → List SeqEvent
  | 0 => []
  | n + 1 =>
    SeqEvent.acquire :: SeqEvent.enqueue :: SeqEvent.release ::
      stream_traffic_seq n

/-- The body of `stream_backpressure_seq`'s `while True` loop observed for
`k` iterations: each iteration enqueues one backpressure transaction and
waits for its `PRE_DRIVE` event. -/
def backpressureBody : Nat → List SeqEvent
  | 0 => []
  | k + 1 => SeqEvent.enqueue :: SeqEvent.wait :: backpressureBody k

/-- `stream_backpressure_seq` (testbench.py lines 104-133) observed for
`k` loop iterations: the `async with ctx.lock(stream)` is entered once,
*outside* the `while True` loop, so the lock is acquired once and the
`async with` block never exits within the run. -/
def stream_backpressure_seq (k : Nat) : List SeqEvent :=
  SeqEvent.acquire :: backpressureBody k

/-- Accumulates, per critical section (from an `acquire` to its `release`,
or to the end of the trace when the lock is still held there), the number
of `enqueue` events performed inside it.  The first argument is `some c`
when the lock is currently held with `c` enqueues so far in the section. -/
def enqSectionsAux : Option Nat → List SeqEvent → List Nat
  | none, [] => []
  | some c, [] => [c]
  | none, e :: rest =>
    match e with
    | SeqEvent.acquire => enqSectionsAux (some 0) rest
    | _ => enqSectionsAux none rest
  | some c, e :: rest =>
    match e with
    | SeqEvent.release => c :: enqSectionsAux none rest
    | SeqEvent.enqueue => enqSectionsAux (some (c + 1)) rest
    | _ => enqSectionsAux (some c) rest

/-- Enqueue counts per lock critical section of a sequence trace. -/
def enqSections (tr : List SeqEvent) : List Nat :=
  enqSectionsAux none tr

/-- Whether the lock is still held when the trace ends. -/
def holdsAtEnd (tr : List SeqEvent) : Bool :=
  tr.foldl
    (fun held e =>
      match e with
      | SeqEvent.acquire => true
      | SeqEvent.release => false
      | _ => held)
    false

/-- The lock discipline the claim asserts of both sequences: every
critical section contains at most one enqueue, and the lock is not
retained at the end of the observed trace. -/
def perTxLocking (tr : List SeqEvent) : Prop :=
  (∀ c ∈ enqSections tr, c ≤ 1) ∧ holdsAtEnd tr = false

/-- C4 counterexample: after just two iterations of its loop,
`stream_backpressure_seq` has performed two enqueues inside one single
critical section and still holds the lock, so the claimed per-transaction
lock discipline is false for it. -/
theorem c4_counterexample :
    ¬ perTxLocking (stream_backpressure_seq 2) := by
  intro h
  have h2 : (2 : Nat) ∈ enqSections (stream_backpressure_seq 2) := by decide
  exact absurd (h.1 2 h2) (by decide)

theorem enqSectionsAux_backpressureBody (k c : Nat) :
    enqSectionsAux (some c) (backpressureBody k) = [c + k] := by
  induction k generalizing c with
  | zero => rfl
  | succ m ih =>
    show enqSectionsAux (some (c + 1)) (backpressureBody m) = [c + (m + 1)]
    rw [ih (c + 1)]
    congr 1
    omega

theorem holdsAtEnd_backpressureBody (k : Nat) :
    (backpressureBody k).foldl
      (fun held e =>
        match e with
        | SeqEvent.acquire => true
        | SeqEvent.release => false
        | _ => held)
      true = true := by
  induction k with
  | zero => rfl
  | succ m ih => exact ih

/-- C4 amended: `stream_traffic_seq` does follow the per-transaction lock
discipline — it acquires the lock before each enqueue, every critical
section contains exactly one enqueue, and the lock is released after each
one — but `stream_backpressure_seq` acquires the lock once, before its
infinite loop, and then retains it across all `k` of its observed
enqueue-and-wait iterations, never releasing it. -/
theorem c4_amended_locking (n k : Nat) :
    (enqSections (stream_traffic_seq n) = List.replicate n 1 ∧
        perTxLocking (stream_traffic_seq n)) ∧
      enqSections (stream_backpressure_seq k) = [k] ∧
      holdsAtEnd (stream_backpressure_seq k) = true ∧
      SeqEvent.release ∉ stream_backpressure_seq k := by
  have htraffic : ∀ m : Nat,
      enqSections (stream_traffic_seq m) = List.replicate m 1 ∧
        holdsAtEnd (stream_traffic_seq m) = false := by
    intro m
    induction m with
    | zero => exact ⟨rfl, rfl⟩
    | succ j ih =>
      refine ⟨?_, ?_⟩
      · show 1 :: enqSections (stream_traffic_seq j) = 1 :: List.replicate j 1
        rw [ih.1]
      · exact ih.2
  have hrelease : ∀ m : Nat, SeqEvent.release ∉ backpressureBody m := by
    intro m
    induction m with
    | zero => simp [backpressureBody]
    | succ j ih => simp [backpressureBody, ih]
  refine ⟨⟨(htraffic n).1, ⟨?_, (htraffic n).2⟩⟩, ?_, ?_, ?_⟩
  · intro c hc
    rw [(htraffic n).1] at hc
    rw [List.eq_of_mem_replicate hc]
  · show enqSectionsAux (some 0) (backpressureBody k) = [k]
    rw [enqSectionsAux_backpressureBody k 0]
    congr 1
    omega
  · exact holdsAtEnd_backpressureBody k
  · simp [stream_backpressure_seq, hrelease k]

/-! ## Scoreboard channel -/

/-- Modelled from the spec: the scoreboard channel of the forastero
library (its `Scoreboard` code is not part of this repository's sources;
spec §4.3).  A channel holds a `reference` queue and an `actual` queue, a
count of fatal mismatches, and a `halted` flag — a fatal mismatch aborts
the run, so no further matching happens after one. -/
structure Channel (α : Type) where
  reference : List α := []
  actual : List α := []
  mismatches : Nat := 0
  halted : Bool := false
  deriving Repr, DecidableEq

/-- Modelled from the spec: scan the reference queue from its head forward
up to `window` positions (never beyond the current queue length) for the
first entry equal to `x`, returning its offset. -/
def findInWindow {α : Type} [DecidableEq α] (x : α) : List α → Nat → Option Nat
  | _, 0 => none
  | [], _ => none
  | y :: rest, w + 1 =>
    if y = x then some 0 else (findInWindow x rest w).map (· + 1)

/-- Modelled from the spec: the matching step run after every append to
either queue.  If both queues are non-empty, the head of `actual` is
compared against reference entries within the window; a match at offset
`k` removes that reference entry (regardless of its position) and the
actual head; no match within the window is a fatal mismatch. -/
def channelStep {α : Type} [DecidableEq α] (window : Nat) (ch : Channel α) :
    Channel α :=
  if ch.halted then ch
  else
    match ch.actual with
    | [] => ch
    | a :: actRest =>
      if ch.reference.isEmpty then ch
      else
        match findInWindow a ch.reference window with
        | some k =>
          { ch with reference := ch.reference.eraseIdx k, actual := actRest }
        | none => { ch with mismatches := ch.mismatches + 1, halted := true }

/-- Modelled from the spec: append to the reference queue, then run the
matching step. -/
def push_reference {α : Type} [DecidableEq α] (window : Nat) (ch : Channel α)
    (x : α) : Channel α :=
  channelStep window { ch with reference := ch.reference ++ [x] }

/-- Modelled from the spec: append to the actual queue (fed by Monitor
captures), then run the matching step. -/
def push_actual {α : Type} [DecidableEq α] (window : Nat) (ch : Channel α)
    (x : α) : Channel α :=
  channelStep window { ch with actual := ch.actual ++ [x] }

/-- One append to a scoreboard channel, on either side. -/
inductive Push (α : Type) where
  | ref (x : α)
  | act (x : α)
  deriving Repr, DecidableEq

/-- Run a sequence of appends against a channel. -/
def runPushes {α : Type} [DecidableEq α] (window : Nat) (ch : Channel α) :
    List (Push α) → Channel α
  | [] => ch
  | Push.ref x :: rest => runPushes window (push_reference window ch x) rest
  | Push.act x :: rest => runPushes window (push_actual window ch x) rest

/-- C6: with reference queue `[a,b,c,d]` (here `0,1,2,3`) and actual
entries arriving in order `[b,a,c,d]` under `window = 2`, the channel
finishes with zero mismatches and both queues empty; with the same
reference queue and actual arriving `[c,a,b,d]` under `window = 1`, the
channel reports exactly one fatal mismatch; and a match found at a
non-head offset removes that reference entry while entries ahead of it
stay (reference `[a,b]`, actual head `b`, `window = 2` leaves `[a]`). -/
theorem c6_scoreboard_window :
    ((runPushes 2 ({} : Channel Nat)
        [Push.ref 0, Push.ref 1, Push.ref 2, Push.ref 3,
          Push.act 1, Push.act 0, Push.act 2, Push.act 3]).mismatches = 0 ∧
      (runPushes 2 ({} : Channel Nat)
        [Push.ref 0, Push.ref 1, Push.ref 2, Push.ref 3,
          Push.act 1, Push.act 0, Push.act 2, Push.act 3]).reference = [] ∧
      (runPushes 2 ({} : Channel Nat)
        [Push.ref 0, Push.ref 1, Push.ref 2, Push.ref 3,
          Push.act 1, Push.act 0, Push.act 2, Push.act 3]).actual = []) ∧
    (runPushes 1 ({} : Channel Nat)
        [Push.ref 0, Push.ref 1, Push.ref 2, Push.ref 3,
          Push.act 2, Push.act 0, Push.act 1, Push.act 3]).mismatches = 1 ∧
    (runPushes 2 ({} : Channel Nat)
        [Push.ref 0, Push.ref 1, Push.act 1]).reference = [0] := by
  decide

/-! ## The testbench model callback -/

/-- The testbench state relevant to the model callback: the pending queues
of the two initiator drivers and the reference queue of the scoreboard
channel named `x_mon`. -/
structure Bench where
  aQueue : List StreamTransaction := []
  bQueue : List StreamTransaction := []
  xmonReference : List StreamTransaction := []
  deriving Repr, DecidableEq

/-- `Testbench.model` (testbench.py lines 198-205): the callback
subscribed to the `ENQUEUE` event of both `a_init` and `b_init`; it pushes
the enqueued transaction object, unmodified, onto the reference queue of
scoreboard channel `x_mon`. -/
def Testbench.model (tb : Bench) (obj : StreamTransaction) : Bench :=
  { tb with xmonReference := tb.xmonReference ++ [obj] }

/-- Modelled from the spec: the event-bus publish of forastero's
`BaseDriver.enqueue` (not part of this repository's sources; spec §4.5) —
every callback subscribed to the published event runs synchronously, in
registration order, with the enqueued object. -/
def publish (subs : List (Bench → StreamTransaction → Bench)) (tb : Bench)
    (obj : StreamTransaction) : Bench :=
  subs.foldl (fun t f => f t obj) tb

/-- The `ENQUEUE` subscriber list of each initiator driver after
`Testbench.__init__` (testbench.py lines 195-196): exactly
`Testbench.model`, on both `a_init` and `b_init`. -/
def enqueueSubs : List (Bench → StreamTransaction → Bench) :=
  [Testbench.model]

/-- Enqueue on driver `a_init`: append to its queue, then publish
`ENQUEUE` to its subscribers. -/
def a_init_enqueue (tb : Bench) (obj : StreamTransaction) : Bench :=
  publish enqueueSubs { tb with aQueue := tb.aQueue ++ [obj] } obj

/-- Enqueue on driver `b_init`: append to its queue, then publish
`ENQUEUE` to its subscribers. -/
def b_init_enqueue (tb : Bench) (obj : StreamTransaction) : Bench :=
  publish enqueueSubs { tb with bQueue := tb.bQueue ++ [obj] } obj

/-- A transaction enqueued on one of the two initiator drivers. -/
inductive EnqCmd where
  | onA (obj : StreamTransaction)
  | onB (obj : StreamTransaction)
  deriving Repr, DecidableEq

/-- The transaction object an enqueue command carries. -/
def EnqCmd.obj : EnqCmd → StreamTransaction
  | onA o => o
  | onB o => o

/-- Runs a sequence of enqueues against the bench. -/
def runEnqueues (tb : Bench) : List EnqCmd → Bench
  | [] => tb
  | EnqCmd.onA o :: rest => runEnqueues (a_init_enqueue tb o) rest
  | EnqCmd.onB o :: rest => runEnqueues (b_init_enqueue tb o) rest

theorem runEnqueues_xmonReference (cmds : List EnqCmd) (tb : Bench) :
    (runEnqueues tb cmds).xmonReference =
      tb.xmonReference ++ cmds.map EnqCmd.obj := by
  induction cmds generalizing tb with
  | nil => simp [runEnqueues]
  | cons c rest ih =>
    cases c with
    | onA o =>
      show (runEnqueues (a_init_enqueue tb o) rest).xmonReference = _
      rw [ih]
      simp [a_init_enqueue, publish, enqueueSubs, Testbench.model, EnqCmd.obj]
    | onB o =>
      show (runEnqueues (b_init_enqueue tb o) rest).xmonReference = _
      rw [ih]
      simp [b_init_enqueue, publish, enqueueSubs, Testbench.model, EnqCmd.obj]

/-- C7: for every sequence of enqueues on the drivers `a_init` and
`b_init`, the `Testbench.model` callback (subscribed to the `ENQUEUE`
event of both) pushes exactly the enqueued transaction objects, unmodified
and in enqueue order, onto the reference queue of scoreboard channel
`x_mon`; no enqueued transaction is omitted. -/
theorem c7_model_forwards_all (cmds : List EnqCmd) :
    (runEnqueues {} cmds).xmonReference = cmds.map EnqCmd.obj :=
  runEnqueues_xmonReference cmds {}
